import Mathlib

/-
Verification of the transaction-reconciliation core of the payment-intermediary
service (the revision of src/server.js that maintains the secondary index
`buckpayIdToExternalId`; that revision is the one the specification documents:
it is the only one with a secondary index).

Modelling conventions:
- JavaScript `Map` objects become association lists `List (String × α)` with
  the lookup / insert / delete operations `mget` / `mset` / `mdel` below.
- Timestamps are integer milliseconds.  The source compares
  `(now - createdAt) / 60000 > TRANSACTION_LIFETIME_MINUTES`; over exact
  arithmetic this is `now - createdAt > TRANSACTION_LIFETIME_MINUTES * 60000`.
- Monetary amounts are integers (cents).  Webhook amount/fee fields are
  `Option Int`: `some n` models `typeof x === 'number'`, `none` models an
  absent or non-numeric value (JSON cannot carry NaN).
- The free-form attribute bags (customer, product, offer, tracking) are carried
  opaquely as `Option String` payloads: the handlers only test their presence
  (JS truthiness of undefined/null versus an object) and pass them through.
- A possibly-absent JS string (e.g. `data.id`) is `Option String`; JS
  truthiness of a string is falsity of `none` and of `some ""`.
- The outcome of the network call inside `sendToUTMify` is an oracle boolean
  (`sendOk`), and `sendToUTMify` itself is modelled as the pure construction of
  the payload it posts.
-/

/-- Lookup in an association list, mirroring `Map.prototype.get`. -/
def mget {α : Type} (m : List (String × α)) (k : String) : Option α :=
  match m with
  | [] => none
  | (k0, v) :: rest => if k0 = k then some v else mget rest k

/-- Insert/overwrite in an association list, mirroring `Map.prototype.set`. -/
def mset {α : Type} (m : List (String × α)) (k : String) (v : α) :
    List (String × α) :=
  match m with
  | [] => [(k, v)]
  | (k0, v0) :: rest => if k0 = k then (k, v) :: rest else (k0, v0) :: mset rest k v

/-- Delete from an association list, mirroring `Map.prototype.delete`. -/
def mdel {α : Type} (m : List (String × α)) (k : String) : List (String × α) :=
  match m with
  | [] => []
  | (k0, v0) :: rest => if k0 = k then mdel rest k else (k0, v0) :: mdel rest k

/-- The keys of an association list. -/
def keysOf {α : Type} (m : List (String × α)) : List String :=
  m.map Prod.fst

theorem mget_mset_self {α : Type} (m : List (String × α)) (k : String) (v : α) :
    mget (mset m k v) k = some v := by
  induction m with
  | nil => simp [mget, mset]
  | cons hd tl ih =>
    obtain ⟨k0, v0⟩ := hd
    by_cases h : k0 = k
    · simp [mget, mset, h]
    · simp [mget, mset, h, ih]

theorem mget_mset_ne {α : Type} (m : List (String × α)) (k k' : String) (v : α)
    (h : k' ≠ k) : mget (mset m k v) k' = mget m k' := by
  induction m with
  | nil =>
    simp only [mset, mget, if_neg (Ne.symm h)]
  | cons hd tl ih =>
    obtain ⟨k0, v0⟩ := hd
    by_cases h0 : k0 = k
    · subst h0
      simp only [mset, if_pos rfl, mget, if_neg (Ne.symm h)]
    · simp only [mset, if_neg h0, mget]
      by_cases h1 : k0 = k'
      · simp [h1]
      · simp [h1, ih]

theorem mget_mdel_self {α : Type} (m : List (String × α)) (k : String) :
    mget (mdel m k) k = none := by
  induction m with
  | nil => simp [mget, mdel]
  | cons hd tl ih =>
    obtain ⟨k0, v0⟩ := hd
    by_cases h : k0 = k
    · simp [mdel, h, ih]
    · simp [mget, mdel, h, ih]

theorem mget_mdel_ne {α : Type} (m : List (String × α)) (k k' : String)
    (h : k' ≠ k) : mget (mdel m k) k' = mget m k' := by
  induction m with
  | nil => simp [mdel]
  | cons hd tl ih =>
    obtain ⟨k0, v0⟩ := hd
    by_cases h0 : k0 = k
    · subst h0
      simp [mdel, mget, ih, Ne.symm h]
    · simp only [mdel, if_neg h0, mget]
      by_cases h1 : k0 = k'
      · simp [h1]
      · simp [h1, ih]

theorem mem_keysOf_of_mem {α : Type} {m : List (String × α)} {p : String × α}
    (h : p ∈ m) : p.1 ∈ keysOf m :=
  List.mem_map_of_mem Prod.fst h

theorem mem_of_mget_some {α : Type} {m : List (String × α)} {k : String} {v : α}
    (h : mget m k = some v) : (k, v) ∈ m := by
  induction m with
  | nil => simp [mget] at h
  | cons hd tl ih =>
    obtain ⟨k0, v0⟩ := hd
    by_cases h0 : k0 = k
    · subst h0
      simp [mget] at h
      simp [h]
    · simp [mget, h0] at h
      exact List.mem_cons_of_mem _ (ih h)

theorem mget_eq_some_of_mem {α : Type} {m : List (String × α)} {k : String}
    {v : α} (hnd : (keysOf m).Nodup) (h : (k, v) ∈ m) : mget m k = some v := by
  induction m with
  | nil => simp at h
  | cons hd tl ih =>
    obtain ⟨k0, v0⟩ := hd
    have hnd' := List.nodup_cons.mp (show (k0 :: keysOf tl).Nodup from hnd)
    rcases List.mem_cons.mp h with h1 | h1
    · cases h1
      simp [mget]
    · have hk0 : k0 ≠ k := by
        intro he
        subst he
        exact hnd'.1 (mem_keysOf_of_mem h1)
      simp only [mget, if_neg hk0]
      exact ih hnd'.2 h1

theorem keysOf_mset {α : Type} (m : List (String × α)) (k : String) (v : α) :
    keysOf (mset m k v) =
      if k ∈ keysOf m then keysOf m else keysOf m ++ [k] := by
  induction m with
  | nil => simp [mset, keysOf]
  | cons hd tl ih =>
    obtain ⟨k0, v0⟩ := hd
    by_cases h0 : k0 = k
    · subst h0
      have hmem : k0 ∈ keysOf ((k0, v0) :: tl) := by
        simp [keysOf]
      simp [mset, keysOf, hmem]
    · simp only [mset, if_neg h0]
      have hks : keysOf ((k0, v0) :: mset tl k v) = k0 :: keysOf (mset tl k v) := rfl
      have hks2 : keysOf ((k0, v0) :: tl) = k0 :: keysOf tl := rfl
      rw [hks, hks2, ih]
      by_cases hmem : k ∈ keysOf tl
      · have hmem2 : k ∈ k0 :: keysOf tl := List.mem_cons_of_mem _ hmem
        simp [hmem, hmem2]
      · have hmem2 : k ∉ k0 :: keysOf tl := by
          intro hc
          rcases List.mem_cons.mp hc with hc | hc
          · exact h0 hc.symm
          · exact hmem hc
        simp [hmem, hmem2]

theorem nodup_keys_mset {α : Type} (m : List (String × α)) (k : String) (v : α)
    (h : (keysOf m).Nodup) : (keysOf (mset m k v)).Nodup := by
  rw [keysOf_mset]
  by_cases hmem : k ∈ keysOf m
  · simpa [hmem] using h
  · simp only [hmem, if_false]
    refine List.Nodup.append h (List.nodup_singleton k) ?_
    intro a ha hb
    simp only [List.mem_singleton] at hb
    subst hb
    exact hmem ha

theorem mem_keysOf_mdel {α : Type} {m : List (String × α)} {k a : String}
    (h : a ∈ keysOf (mdel m k)) : a ∈ keysOf m := by
  induction m with
  | nil => simpa [mdel] using h
  | cons hd tl ih =>
    obtain ⟨k0, v0⟩ := hd
    by_cases h0 : k0 = k
    · simp only [mdel, if_pos h0] at h
      exact List.mem_cons_of_mem _ (ih h)
    · simp only [mdel, if_neg h0] at h
      have h' : a ∈ k0 :: keysOf (mdel tl k) := h
      rcases List.mem_cons.mp h' with h1 | h1
      · simp [keysOf, h1]
      · have h2 := ih h1
        simp only [keysOf, List.map_cons, List.mem_cons]
        exact Or.inr h2

theorem nodup_keys_mdel {α : Type} (m : List (String × α)) (k : String)
    (h : (keysOf m).Nodup) : (keysOf (mdel m k)).Nodup := by
  induction m with
  | nil => simp [mdel, keysOf]
  | cons hd tl ih =>
    obtain ⟨k0, v0⟩ := hd
    have h' := List.nodup_cons.mp (show (k0 :: keysOf tl).Nodup from h)
    by_cases h0 : k0 = k
    · simp only [mdel, if_pos h0]
      exact ih h'.2
    · simp only [mdel, if_neg h0]
      show (k0 :: keysOf (mdel tl k)).Nodup
      refine List.nodup_cons.mpr ⟨?_, ih h'.2⟩
      intro hmem
      exact h'.1 (mem_keysOf_mdel hmem)

/-- JS string truthiness: `undefined` and `""` are falsy. -/
def jsTruthyStr (o : Option String) : Bool :=
  match o with
  | some s => if s = "" then false else true
  | none => false

/-- JS `a || b` on possibly-absent strings. -/
def jsOrStr (a b : Option String) : Option String :=
  match a with
  | some s => if s = "" then b else some s
  | none => b

/-- JS `a || b` where `a` is a possibly-absent object (objects are truthy). -/
def jsOrObj (a b : Option String) : Option String :=
  match a with
  | some x => some x
  | none => b

/-- `TRANSACTION_LIFETIME_MINUTES = 35` in the source.  Expressed in
milliseconds so the float division by 60000 disappears:
`elapsedTimeMinutes > 35` is `now - createdAt > 35 * 60000`. -/
def transactionLifetimeMs : Int := 35 * 60 * 1000

/-- One ledger entry: the `transactionInfo` objects stored in
`pendingTransactions`. -/
structure TransactionInfo where
  createdAt : Int
  buckpayId : Option String
  status : String
  tracking : Option String
  customer : Option String
  product : Option String
  offer : Option String
  amountInCents : Int
  gatewayFee : Int
  utmifyNotifiedStatus : List String
deriving DecidableEq, Repr

/-- The module-level mutable state: primary ledger `pendingTransactions`
(keyed by externalId) and secondary index `buckpayIdToExternalId`
(gateway transaction id -> externalId). -/
structure ServerState where
  pendingTransactions : List (String × TransactionInfo)
  buckpayIdToExternalId : List (String × String)
deriving DecidableEq, Repr

def emptyServerState : ServerState :=
  { pendingTransactions := [], buckpayIdToExternalId := [] }

/-- The argument object `transactionDataForUTMify` of `sendToUTMify`. -/
structure TransactionDataForUTMify where
  amountInCents : Int
  gatewayFee : Int
  tracking : Option String
  customer : Option String
  product : Option String
  offer : Option String
deriving DecidableEq, Repr

/-- The payload `sendToUTMify` posts to the attribution service.  The
customer / products / trackingParameters blocks are assembled from the opaque
attribute bags (with literal fallbacks) and are carried here as `sourceData`;
the commission block is computed below exactly as in the source. -/
structure UTMifyBody where
  orderId : Option String
  status : String
  totalPriceInCents : Int
  gatewayFeeInCents : Int
  userCommissionInCents : Int
  sourceData : TransactionDataForUTMify
deriving DecidableEq, Repr

/-- `sendToUTMify(orderId, status, transactionDataForUTMify)` modelled as the
pure construction of the posted body.  The source guards
`typeof x === 'number' && !isNaN(x)` are identity here because the fields are
already integers in the typed model. -/
def sendToUTMify (orderId : Option String) (status : String)
    (transactionDataForUTMify : TransactionDataForUTMify) : UTMifyBody :=
  let totalOrderAmount := transactionDataForUTMify.amountInCents
  let gatewayFee := transactionDataForUTMify.gatewayFee
  let userCommission0 := totalOrderAmount - gatewayFee
  let userCommission :=
    if status = "paid" ∧ 0 < totalOrderAmount ∧ userCommission0 ≤ 0 then 1
    else userCommission0
  { orderId := orderId
    status := status
    totalPriceInCents := totalOrderAmount
    gatewayFeeInCents := gatewayFee
    userCommissionInCents := userCommission
    sourceData := transactionDataForUTMify }

/-- The `data` object of an inbound `POST /webhook/buckpay` body.
`fees_gateway_fee` stands for `data.fees?.gateway_fee`. -/
structure WebhookData where
  event : Option String
  id : Option String
  external_id : Option String
  status : String
  total_amount : Option Int
  amount : Option Int
  fees_gateway_fee : Option Int
  tracking : Option String
  buyer : Option String
  product : Option String
  offer : Option String
deriving DecidableEq, Repr

/-- `const gatewayFeeFromWebhook = typeof data.fees?.gateway_fee === 'number'
? data.fees.gateway_fee : 0`. -/
def gatewayFeeFromWebhook (data : WebhookData) : Int :=
  match data.fees_gateway_fee with
  | some n => n
  | none => 0

/-- `const amountFromWebhook = typeof data.total_amount === 'number'
? data.total_amount : (typeof data.amount === 'number' ? data.amount : 0)`. -/
def amountFromWebhook (data : WebhookData) : Int :=
  match data.total_amount with
  | some a => a
  | none =>
    match data.amount with
    | some a => a
    | none => 0

/-- The resolution step of the webhook handler:
`orderIdToUseForUTMify = buckpayIdToExternalId.get(buckpayInternalId)` (only
when `buckpayInternalId` is truthy), then
`transactionInfo = pendingTransactions.get(orderIdToUseForUTMify)` (only when
that is truthy).  Returns `(orderIdToUseForUTMify, transactionInfo)`. -/
def resolveWebhook (s : ServerState) (buckpayInternalId : Option String) :
    Option String × Option TransactionInfo :=
  match buckpayInternalId with
  | some k =>
    if k = "" then (none, none)
    else
      match mget s.buckpayIdToExternalId k with
      | some ext => (some ext, if ext = "" then none else mget s.pendingTransactions ext)
      | none => (none, none)
  | none => (none, none)

/-- The field merge the handler performs on a hit, before the status logic:
gatewayFee and amountInCents are overwritten with the coerced webhook values,
buckpayId / customer / product / offer via JS `||`. -/
def webhookMergeFields (transactionInfo : TransactionInfo) (data : WebhookData) :
    TransactionInfo :=
  { transactionInfo with
    gatewayFee := gatewayFeeFromWebhook data
    amountInCents := amountFromWebhook data
    buckpayId := jsOrStr data.id transactionInfo.buckpayId
    customer := jsOrObj data.buyer transactionInfo.customer
    product := jsOrObj data.product transactionInfo.product
    offer := jsOrObj data.offer transactionInfo.offer }

/-- The `shouldSendToUTMify` decision on a hit: a changed status always sends;
an unchanged `'paid'` sends only if `'paid'` is not yet marked notified; any
other unchanged status never sends. -/
def webhookShouldSend (transactionInfo : TransactionInfo)
    (currentBuckpayStatus : String) : Bool :=
  if transactionInfo.status ≠ currentBuckpayStatus then true
  else if currentBuckpayStatus = "paid" then
    !(transactionInfo.utmifyNotifiedStatus.contains "paid")
  else false

/-- Result of one webhook delivery: the new state, the attribution forwards
performed (bodies built by `sendToUTMify`), and the HTTP status returned. -/
structure WebhookResult where
  state : ServerState
  forwards : List UTMifyBody
  httpStatus : Nat
deriving DecidableEq, Repr

/-- The status-change step on a hit: if the webhook status differs from the
stored one, overwrite it (`transactionInfo.status = currentBuckpayStatus`),
after the field merge has been applied. -/
def webhookStatusUpdate (transactionInfo : TransactionInfo)
    (data : WebhookData) : TransactionInfo :=
  if transactionInfo.status ≠ data.status then
    { webhookMergeFields transactionInfo data with status := data.status }
  else webhookMergeFields transactionInfo data

/-- The `transactionDataForUTMify` argument assembled from the in-memory
entry on a hit forward. -/
def txDataForUTMifyOf (t : TransactionInfo) : TransactionDataForUTMify :=
  { amountInCents := t.amountInCents
    gatewayFee := t.gatewayFee
    tracking := t.tracking
    customer := t.customer
    product := t.product
    offer := t.offer }

/-- `if (sent) transactionInfo.utmifyNotifiedStatus.set(utmifyStatusToSend,
true)`. -/
def webhookRecordNotified (t : TransactionInfo) (status : String)
    (sendOk : Bool) : TransactionInfo :=
  if sendOk then
    { t with utmifyNotifiedStatus := status :: t.utmifyNotifiedStatus }
  else t

/-- The hit branch (transaction found in memory) of the webhook handler: merge
fields, update the status, decide whether to send, forward with the merged
entry's data, and mark the status notified only on a successful send. -/
def webhookHit (s : ServerState) (data : WebhookData) (ext : String)
    (transactionInfo : TransactionInfo) (sendOk : Bool) : WebhookResult :=
  if webhookShouldSend transactionInfo data.status then
    { state :=
        { s with
          pendingTransactions :=
            mset s.pendingTransactions ext
              (webhookRecordNotified (webhookStatusUpdate transactionInfo data)
                data.status sendOk) }
      forwards :=
        [sendToUTMify (some ext) data.status
          (txDataForUTMifyOf (webhookStatusUpdate transactionInfo data))]
      httpStatus := 200 }
  else
    { state :=
        { s with
          pendingTransactions :=
            mset s.pendingTransactions ext
              (webhookStatusUpdate transactionInfo data) }
      forwards := []
      httpStatus := 200 }

/-- `POST /webhook/buckpay`.  Resolution goes through the secondary index only;
on a miss a `'paid'` status triggers a best-effort forward built from the
webhook's own data, with `orderIdToUseForUTMify || buckpayInternalId` as the
forwarded orderId, and the state is untouched.  Always responds 200. -/
def webhookBuckpay (s : ServerState) (data : WebhookData) (sendOk : Bool) :
    WebhookResult :=
  match resolveWebhook s data.id with
  | (some ext, some transactionInfo) => webhookHit s data ext transactionInfo sendOk
  | (orderIdToUse, _) =>
    if data.status = "paid" then
      { state := s
        forwards := [sendToUTMify (jsOrStr orderIdToUse data.id) "paid"
          { amountInCents := amountFromWebhook data
            gatewayFee := gatewayFeeFromWebhook data
            tracking := data.tracking
            customer := data.buyer
            product := data.product
            offer := data.offer }]
        httpStatus := 200 }
    else
      { state := s, forwards := [], httpStatus := 200 }

/-- The state effect of the success path of `POST /create-payment`: a fresh
ledger entry with status `'pending'`, fee 0, and the
`utmifyNotifiedStatus` map seeded with `"waiting_payment"` when the initial
forward succeeded; plus the secondary-index mapping
`buckpayIdToExternalId.set(data.data.id, externalId)`.  `buckpayId` is the id
string the gateway returned (the source stores it unchecked, so it may be
empty).  Failure paths of the handler leave the state untouched and are
modelled by taking no step. -/
def createPayment (s : ServerState) (now : Int) (externalId : String)
    (buckpayId : String) (amountInCents : Int)
    (tracking customer product offer : Option String) (utmifySent : Bool) :
    ServerState :=
  { pendingTransactions := mset s.pendingTransactions externalId
      { createdAt := now
        buckpayId := some buckpayId
        status := "pending"
        tracking := tracking
        customer := customer
        product := product
        offer := offer
        amountInCents := amountInCents
        gatewayFee := 0
        utmifyNotifiedStatus := if utmifySent then ["waiting_payment"] else [] }
    buckpayIdToExternalId := mset s.buckpayIdToExternalId buckpayId externalId }

/-- The lazy-expiry mutation of the status query: a `'pending'` entry older
than the lifetime threshold (in this revision the display threshold is
`TRANSACTION_LIFETIME_MINUTES` itself) is flipped to `'expired'`. -/
def lazyExpire (t : TransactionInfo) (now : Int) : TransactionInfo :=
  if t.status = "pending" ∧ now - t.createdAt > transactionLifetimeMs then
    { t with status := "expired" }
  else t

/-- `GET /check-order-status?id=...`: returns (new state, HTTP status, status
string of the JSON body).  A `'pending'` entry older than the lifetime
threshold is lazily flipped to `'expired'` before being reported. -/
def checkOrderStatus (s : ServerState) (now : Int) (externalId : Option String) :
    ServerState × Nat × Option String :=
  match externalId with
  | none => (s, 400, none)
  | some i =>
    if i = "" then (s, 400, none)
    else
      match mget s.pendingTransactions i with
      | some transactionInfo =>
        ({ s with
           pendingTransactions :=
             mset s.pendingTransactions i (lazyExpire transactionInfo now) },
          200, some (lazyExpire transactionInfo now).status)
      | none => (s, 200, some "not_found_or_expired")

/-- Deletion of one entry inside the cleanup sweep: remove the ledger entry
and, when `transactionInfo.buckpayId` is truthy, the secondary-index
mapping keyed by it. -/
def cleanupDelete (s : ServerState) (externalId : String)
    (buckpayId : Option String) : ServerState :=
  match buckpayId with
  | some b =>
    if b = "" then
      { s with pendingTransactions := mdel s.pendingTransactions externalId }
    else
      { pendingTransactions := mdel s.pendingTransactions externalId
        buckpayIdToExternalId := mdel s.buckpayIdToExternalId b }
  | none =>
    { s with pendingTransactions := mdel s.pendingTransactions externalId }

/-- The loop body of `cleanupTransactionsInMemory`, iterating the entries of
`pendingTransactions`.  The second branch of the source first flips the status
to `'expired'` and then deletes the entry, so its net state effect is the same
deletion. -/
def cleanupLoop (now : Int) (entries : List (String × TransactionInfo))
    (s : ServerState) : ServerState :=
  match entries with
  | [] => s
  | (externalId, transactionInfo) :: rest =>
    let elapsed := now - transactionInfo.createdAt
    if transactionInfo.status ≠ "pending" ∧ elapsed > transactionLifetimeMs then
      cleanupLoop now rest (cleanupDelete s externalId transactionInfo.buckpayId)
    else if transactionInfo.status = "pending" ∧ elapsed > transactionLifetimeMs then
      cleanupLoop now rest (cleanupDelete s externalId transactionInfo.buckpayId)
    else
      cleanupLoop now rest s

/-- One pass of the periodic cleanup sweep. -/
def cleanupTransactionsInMemory (now : Int) (s : ServerState) : ServerState :=
  cleanupLoop now s.pendingTransactions s

/-- When an entry is deleted by the sweep: exactly when its age exceeds the
lifetime threshold (the two source branches cover status not-pending and
pending with the same age bound). -/
def sweepDeletes (now : Int) (transactionInfo : TransactionInfo) : Prop :=
  now - transactionInfo.createdAt > transactionLifetimeMs

instance (now : Int) (t : TransactionInfo) : Decidable (sweepDeletes now t) := by
  unfold sweepDeletes
  infer_instance

/-- Secondary-index consistency (plus well-formed ledger keys): every mapping
has a truthy key, points to a truthy externalId, and that externalId holds a
live entry whose stored gateway id is exactly the mapping's key. -/
def IndexConsistent (s : ServerState) : Prop :=
  (keysOf s.pendingTransactions).Nodup ∧
  ∀ b ext, mget s.buckpayIdToExternalId b = some ext →
    b ≠ "" ∧ ext ≠ "" ∧
    ∃ t, mget s.pendingTransactions ext = some t ∧ t.buckpayId = some b

/-- States reachable from the empty initial state by the four operations.  The
create step carries the freshness and nonemptiness of the generated
`order_<timestamp>_<random>` identifier as side conditions. -/
inductive Reachable : ServerState → Prop where
  | init : Reachable emptyServerState
  | create (s : ServerState) (now : Int) (externalId buckpayId : String)
      (amountInCents : Int) (tracking customer product offer : Option String)
      (utmifySent : Bool) (h : Reachable s)
      (hfresh : mget s.pendingTransactions externalId = none)
      (hext : externalId ≠ "") :
      Reachable (createPayment s now externalId buckpayId amountInCents
        tracking customer product offer utmifySent)
  | webhook (s : ServerState) (data : WebhookData) (sendOk : Bool)
      (h : Reachable s) : Reachable (webhookBuckpay s data sendOk).state
  | query (s : ServerState) (now : Int) (externalId : Option String)
      (h : Reachable s) : Reachable (checkOrderStatus s now externalId).1
  | sweep (s : ServerState) (now : Int) (h : Reachable s) :
      Reachable (cleanupTransactionsInMemory now s)

/-- Reachability restricted to runs in which the payment gateway always
returns a nonempty transaction id at creation. -/
inductive ReachableNE : ServerState → Prop where
  | init : ReachableNE emptyServerState
  | create (s : ServerState) (now : Int) (externalId buckpayId : String)
      (amountInCents : Int) (tracking customer product offer : Option String)
      (utmifySent : Bool) (h : ReachableNE s)
      (hfresh : mget s.pendingTransactions externalId = none)
      (hext : externalId ≠ "") (hbid : buckpayId ≠ "") :
      ReachableNE (createPayment s now externalId buckpayId amountInCents
        tracking customer product offer utmifySent)
  | webhook (s : ServerState) (data : WebhookData) (sendOk : Bool)
      (h : ReachableNE s) : ReachableNE (webhookBuckpay s data sendOk).state
  | query (s : ServerState) (now : Int) (externalId : Option String)
      (h : ReachableNE s) : ReachableNE (checkOrderStatus s now externalId).1
  | sweep (s : ServerState) (now : Int) (h : ReachableNE s) :
      ReachableNE (cleanupTransactionsInMemory now s)

theorem resolveWebhook_hit_inv {s : ServerState} {i : Option String}
    {ext : String} {t : TransactionInfo}
    (h : resolveWebhook s i = (some ext, some t)) :
    ∃ k, i = some k ∧ k ≠ "" ∧ mget s.buckpayIdToExternalId k = some ext ∧
      ext ≠ "" ∧ mget s.pendingTransactions ext = some t := by
  cases i with
  | none => simp [resolveWebhook] at h
  | some k =>
    by_cases hk : k = ""
    · simp [resolveWebhook, hk] at h
    · cases hidx : mget s.buckpayIdToExternalId k with
      | none => simp [resolveWebhook, hk, hidx] at h
      | some e =>
        by_cases hext : e = ""
        · simp [resolveWebhook, hk, hidx, hext] at h
        · simp only [resolveWebhook, if_neg hk, hidx, if_neg hext,
            Prod.mk.injEq, Option.some.injEq] at h
          obtain ⟨he, h2⟩ := h
          subst he
          exact ⟨k, rfl, hk, hidx, hext, h2⟩

theorem resolveWebhook_snd_some {s : ServerState} {i : Option String}
    {o : Option String} {t : TransactionInfo}
    (h : resolveWebhook s i = (o, some t)) :
    ∃ ext, o = some ext ∧ resolveWebhook s i = (some ext, some t) := by
  cases i with
  | none => simp [resolveWebhook] at h
  | some k =>
    by_cases hk : k = ""
    · simp [resolveWebhook, hk] at h
    · cases hidx : mget s.buckpayIdToExternalId k with
      | none => simp [resolveWebhook, hk, hidx] at h
      | some e =>
        by_cases hext : e = ""
        · simp [resolveWebhook, hk, hidx, hext] at h
        · simp only [resolveWebhook, if_neg hk, hidx, if_neg hext,
            Prod.mk.injEq] at h
          refine ⟨e, h.1.symm, ?_⟩
          simp only [resolveWebhook, if_neg hk, hidx, if_neg hext,
            Prod.mk.injEq, h.2]

theorem webhookBuckpay_hit {s : ServerState} {data : WebhookData} {ext : String}
    {t : TransactionInfo} (sendOk : Bool)
    (h : resolveWebhook s data.id = (some ext, some t)) :
    webhookBuckpay s data sendOk = webhookHit s data ext t sendOk := by
  unfold webhookBuckpay
  rw [h]

theorem webhookBuckpay_miss {s : ServerState} {data : WebhookData}
    {o : Option String} (sendOk : Bool)
    (h : resolveWebhook s data.id = (o, none)) :
    webhookBuckpay s data sendOk =
      if data.status = "paid" then
        { state := s
          forwards := [sendToUTMify (jsOrStr o data.id) "paid"
            { amountInCents := amountFromWebhook data
              gatewayFee := gatewayFeeFromWebhook data
              tracking := data.tracking
              customer := data.buyer
              product := data.product
              offer := data.offer }]
          httpStatus := 200 }
      else { state := s, forwards := [], httpStatus := 200 } := by
  cases o with
  | none =>
    unfold webhookBuckpay
    rw [h]
  | some e =>
    unfold webhookBuckpay
    rw [h]

theorem webhookBuckpay_miss_state {s : ServerState} {data : WebhookData}
    {o : Option String} (sendOk : Bool)
    (h : resolveWebhook s data.id = (o, none)) :
    (webhookBuckpay s data sendOk).state = s := by
  rw [webhookBuckpay_miss sendOk h]
  by_cases hp : data.status = "paid" <;> simp [hp]

theorem resolveWebhook_miss_fst_none {s : ServerState} {i : Option String}
    (hinv : IndexConsistent s) (hmiss : (resolveWebhook s i).2 = none) :
    (resolveWebhook s i).1 = none := by
  cases i with
  | none => simp [resolveWebhook]
  | some k =>
    by_cases hk : k = ""
    · simp [resolveWebhook, hk]
    · simp only [resolveWebhook, if_neg hk] at hmiss ⊢
      cases hidx : mget s.buckpayIdToExternalId k with
      | none => simp
      | some e =>
        obtain ⟨hb, hext, t, hm, _⟩ := hinv.2 k e hidx
        rw [hidx] at hmiss
        simp only [if_neg hext] at hmiss
        rw [hm] at hmiss
        simp at hmiss

theorem webhookMergeFields_buckpayId (t : TransactionInfo) (data : WebhookData) :
    (webhookMergeFields t data).buckpayId = jsOrStr data.id t.buckpayId := rfl

theorem webhookStatusUpdate_buckpayId (t : TransactionInfo) (data : WebhookData) :
    (webhookStatusUpdate t data).buckpayId = jsOrStr data.id t.buckpayId := by
  unfold webhookStatusUpdate
  split_ifs <;> rfl

theorem webhookRecordNotified_buckpayId (t : TransactionInfo) (status : String)
    (sendOk : Bool) :
    (webhookRecordNotified t status sendOk).buckpayId = t.buckpayId := by
  unfold webhookRecordNotified
  split_ifs <;> rfl

theorem lazyExpire_buckpayId (t : TransactionInfo) (now : Int) :
    (lazyExpire t now).buckpayId = t.buckpayId := by
  unfold lazyExpire
  split_ifs <;> rfl

theorem webhookHit_state_shape (s : ServerState) (data : WebhookData)
    (ext : String) (t : TransactionInfo) (sendOk : Bool) :
    ∃ tF, (webhookHit s data ext t sendOk).state =
        { s with pendingTransactions := mset s.pendingTransactions ext tF } ∧
      tF.buckpayId = jsOrStr data.id t.buckpayId := by
  unfold webhookHit
  by_cases hsend : webhookShouldSend t data.status = true
  · rw [if_pos hsend]
    exact ⟨webhookRecordNotified (webhookStatusUpdate t data) data.status sendOk,
      rfl, by rw [webhookRecordNotified_buckpayId, webhookStatusUpdate_buckpayId]⟩
  · rw [if_neg hsend]
    exact ⟨webhookStatusUpdate t data, rfl, webhookStatusUpdate_buckpayId t data⟩

theorem cleanupLoop_cons (now : Int) (k : String) (t : TransactionInfo)
    (rest : List (String × TransactionInfo)) (s : ServerState) :
    cleanupLoop now ((k, t) :: rest) s =
      if sweepDeletes now t then
        cleanupLoop now rest (cleanupDelete s k t.buckpayId)
      else cleanupLoop now rest s := by
  by_cases h1 : t.status = "pending" <;>
    by_cases h2 : now - t.createdAt > transactionLifetimeMs <;>
      simp [cleanupLoop, sweepDeletes, h1, h2]

theorem cleanupDelete_ledger (s : ServerState) (k : String)
    (bId : Option String) (k' : String) :
    mget (cleanupDelete s k bId).pendingTransactions k' =
      mget (mdel s.pendingTransactions k) k' := by
  cases bId with
  | none => rfl
  | some b =>
    by_cases hb : b = "" <;> simp [cleanupDelete, hb]

theorem cleanupDelete_index_some {s : ServerState} {k : String}
    {bId : Option String} {b ext : String}
    (h : mget (cleanupDelete s k bId).buckpayIdToExternalId b = some ext) :
    mget s.buckpayIdToExternalId b = some ext := by
  cases bId with
  | none => exact h
  | some b0 =>
    by_cases hb : b0 = ""
    · simpa [cleanupDelete, hb] using h
    · simp only [cleanupDelete, if_neg hb] at h
      by_cases hbb : b = b0
      · subst hbb
        rw [mget_mdel_self] at h
        exact absurd h (by simp)
      · rwa [mget_mdel_ne _ _ _ hbb] at h

theorem cleanupDelete_index_none {s : ServerState} {k : String}
    {bId : Option String} {b : String}
    (h : mget s.buckpayIdToExternalId b = none) :
    mget (cleanupDelete s k bId).buckpayIdToExternalId b = none := by
  cases bId with
  | none => exact h
  | some b0 =>
    by_cases hb : b0 = ""
    · simpa [cleanupDelete, hb] using h
    · simp only [cleanupDelete, if_neg hb]
      by_cases hbb : b = b0
      · subst hbb
        exact mget_mdel_self _ _
      · rwa [mget_mdel_ne _ _ _ hbb]

theorem cleanupDelete_index_deleted (s : ServerState) (k : String) {b : String}
    (hb : b ≠ "") :
    mget (cleanupDelete s k (some b)).buckpayIdToExternalId b = none := by
  simp only [cleanupDelete, if_neg hb]
  exact mget_mdel_self _ _

theorem cleanupLoop_ledger_not_mem {now : Int}
    {es : List (String × TransactionInfo)} {k : String}
    (h : k ∉ keysOf es) (s : ServerState) :
    mget (cleanupLoop now es s).pendingTransactions k =
      mget s.pendingTransactions k := by
  induction es generalizing s with
  | nil => rfl
  | cons hd rest ih =>
    obtain ⟨k0, t0⟩ := hd
    have hk0 : k ≠ k0 := by
      intro he
      exact h (by simp [keysOf, he])
    have hrest : k ∉ keysOf rest := by
      intro he
      exact h (by simp [keysOf]; exact Or.inr (by simpa [keysOf] using he))
    rw [cleanupLoop_cons]
    by_cases hdel : sweepDeletes now t0
    · rw [if_pos hdel, ih hrest, cleanupDelete_ledger,
        mget_mdel_ne _ _ _ hk0]
    · rw [if_neg hdel, ih hrest]

theorem cleanupLoop_ledger_mem {now : Int}
    {es : List (String × TransactionInfo)} {k : String} {t : TransactionInfo}
    (hnd : (keysOf es).Nodup) (hmem : (k, t) ∈ es) (s : ServerState) :
    mget (cleanupLoop now es s).pendingTransactions k =
      if sweepDeletes now t then none else mget s.pendingTransactions k := by
  induction es generalizing s with
  | nil => simp at hmem
  | cons hd rest ih =>
    obtain ⟨k0, t0⟩ := hd
    have hnd' := List.nodup_cons.mp (show (k0 :: keysOf rest).Nodup from hnd)
    rw [cleanupLoop_cons]
    rcases List.mem_cons.mp hmem with h1 | h1
    · cases h1
      have hrest : k ∉ keysOf rest := hnd'.1
      by_cases hdel : sweepDeletes now t
      · rw [if_pos hdel, if_pos hdel, cleanupLoop_ledger_not_mem hrest,
          cleanupDelete_ledger, mget_mdel_self]
      · rw [if_neg hdel, if_neg hdel, cleanupLoop_ledger_not_mem hrest]
    · have hk0 : k ≠ k0 := by
        intro he
        subst he
        exact hnd'.1 (mem_keysOf_of_mem h1)
      by_cases hdel0 : sweepDeletes now t0
      · rw [if_pos hdel0, ih hnd'.2 h1, cleanupDelete_ledger,
          mget_mdel_ne _ _ _ hk0]
      · rw [if_neg hdel0, ih hnd'.2 h1]

theorem cleanupLoop_index_none {now : Int}
    {es : List (String × TransactionInfo)} {b : String} {s : ServerState}
    (h : mget s.buckpayIdToExternalId b = none) :
    mget (cleanupLoop now es s).buckpayIdToExternalId b = none := by
  induction es generalizing s with
  | nil => exact h
  | cons hd rest ih =>
    obtain ⟨k0, t0⟩ := hd
    rw [cleanupLoop_cons]
    by_cases hdel : sweepDeletes now t0
    · rw [if_pos hdel]
      exact ih (cleanupDelete_index_none h)
    · rw [if_neg hdel]
      exact ih h

theorem cleanupLoop_index_some {now : Int}
    {es : List (String × TransactionInfo)} {b ext : String} {s : ServerState}
    (h : mget (cleanupLoop now es s).buckpayIdToExternalId b = some ext) :
    mget s.buckpayIdToExternalId b = some ext := by
  induction es generalizing s with
  | nil => exact h
  | cons hd rest ih =>
    obtain ⟨k0, t0⟩ := hd
    rw [cleanupLoop_cons] at h
    by_cases hdel : sweepDeletes now t0
    · rw [if_pos hdel] at h
      exact cleanupDelete_index_some (ih h)
    · rw [if_neg hdel] at h
      exact ih h

theorem cleanupLoop_index_deleted {now : Int}
    {es : List (String × TransactionInfo)} {k : String} {t : TransactionInfo}
    {b : String} (hmem : (k, t) ∈ es) (hdel : sweepDeletes now t)
    (hbid : t.buckpayId = some b) (hb : b ≠ "") (s : ServerState) :
    mget (cleanupLoop now es s).buckpayIdToExternalId b = none := by
  induction es generalizing s with
  | nil => simp at hmem
  | cons hd rest ih =>
    obtain ⟨k0, t0⟩ := hd
    rw [cleanupLoop_cons]
    rcases List.mem_cons.mp hmem with h1 | h1
    · cases h1
      rw [if_pos hdel, hbid]
      exact cleanupLoop_index_none (cleanupDelete_index_deleted s k hb)
    · by_cases hdel0 : sweepDeletes now t0
      · rw [if_pos hdel0]
        exact ih h1 _
      · rw [if_neg hdel0]
        exact ih h1 _

theorem cleanupLoop_nodup {now : Int} {es : List (String × TransactionInfo)}
    {s : ServerState} (h : (keysOf s.pendingTransactions).Nodup) :
    (keysOf (cleanupLoop now es s).pendingTransactions).Nodup := by
  induction es generalizing s with
  | nil => exact h
  | cons hd rest ih =>
    obtain ⟨k0, t0⟩ := hd
    rw [cleanupLoop_cons]
    by_cases hdel : sweepDeletes now t0
    · rw [if_pos hdel]
      refine ih ?_
      have : (cleanupDelete s k0 t0.buckpayId).pendingTransactions =
          mdel s.pendingTransactions k0 := by
        cases hb : t0.buckpayId with
        | none => rfl
        | some b => by_cases hbe : b = "" <;> simp [cleanupDelete, hbe]
      rw [this]
      exact nodup_keys_mdel _ _ h
    · rw [if_neg hdel]
      exact ih h

theorem indexConsistent_empty : IndexConsistent emptyServerState := by
  constructor
  · simp [emptyServerState, keysOf]
  · intro b ext h
    simp [emptyServerState, mget] at h

theorem indexConsistent_createPayment {s : ServerState}
    (hinv : IndexConsistent s) (now : Int) (externalId buckpayId : String)
    (amountInCents : Int) (tracking customer product offer : Option String)
    (utmifySent : Bool)
    (hfresh : mget s.pendingTransactions externalId = none)
    (hext : externalId ≠ "") (hbid : buckpayId ≠ "") :
    IndexConsistent (createPayment s now externalId buckpayId amountInCents
      tracking customer product offer utmifySent) := by
  constructor
  · exact nodup_keys_mset _ _ _ hinv.1
  · intro b ext h
    simp only [createPayment] at h ⊢
    by_cases hb : b = buckpayId
    · subst hb
      rw [mget_mset_self] at h
      have he : ext = externalId := by
        injection h with h
        exact h.symm
      subst he
      exact ⟨hbid, hext, _, mget_mset_self _ _ _, rfl⟩
    · rw [mget_mset_ne _ _ _ _ hb] at h
      obtain ⟨hb0, hext0, t, hm, hbid0⟩ := hinv.2 b ext h
      have hne : ext ≠ externalId := by
        intro he
        subst he
        rw [hfresh] at hm
        exact Option.noConfusion hm
      exact ⟨hb0, hext0, t, by rw [mget_mset_ne _ _ _ _ hne]; exact hm, hbid0⟩

theorem indexConsistent_checkOrderStatus {s : ServerState}
    (hinv : IndexConsistent s) (now : Int) (externalId : Option String) :
    IndexConsistent (checkOrderStatus s now externalId).1 := by
  cases externalId with
  | none => simpa [checkOrderStatus] using hinv
  | some i =>
    by_cases hi : i = ""
    · simpa [checkOrderStatus, hi] using hinv
    · cases hm : mget s.pendingTransactions i with
      | none => simpa [checkOrderStatus, hi, hm] using hinv
      | some t =>
        simp only [checkOrderStatus, if_neg hi, hm]
        constructor
        · exact nodup_keys_mset _ _ _ hinv.1
        · intro b ext h
          obtain ⟨hb0, hext0, t0, hm0, hbid0⟩ := hinv.2 b ext h
          by_cases he : ext = i
          · subst he
            have ht0 : t0 = t := by
              rw [hm] at hm0
              injection hm0 with hm0
              exact hm0.symm
            subst ht0
            refine ⟨hb0, hext0, _, mget_mset_self _ _ _, ?_⟩
            rw [lazyExpire_buckpayId]
            exact hbid0
          · exact ⟨hb0, hext0, t0,
              by rw [mget_mset_ne _ _ _ _ he]; exact hm0, hbid0⟩

theorem indexConsistent_webhookBuckpay {s : ServerState}
    (hinv : IndexConsistent s) (data : WebhookData) (sendOk : Bool) :
    IndexConsistent (webhookBuckpay s data sendOk).state := by
  rcases hres : resolveWebhook s data.id with ⟨o, ti⟩
  cases ti with
  | none =>
    rw [webhookBuckpay_miss_state sendOk hres]
    exact hinv
  | some t =>
    obtain ⟨ext, ho, hres'⟩ := resolveWebhook_snd_some hres
    rw [webhookBuckpay_hit sendOk hres']
    obtain ⟨k, hik, hk, hidx, hexts, hledg⟩ := resolveWebhook_hit_inv hres'
    obtain ⟨tF, hstate, hbidF⟩ := webhookHit_state_shape s data ext t sendOk
    rw [hstate]
    have hbidt : t.buckpayId = some k := by
      obtain ⟨_, _, t1, hm1, hb1⟩ := hinv.2 k ext hidx
      rw [hledg] at hm1
      injection hm1 with hm1
      rw [← hm1] at hb1
      exact hb1
    have hbidF2 : tF.buckpayId = some k := by
      rw [hbidF, hik]
      simp [jsOrStr, hk]
    constructor
    · exact nodup_keys_mset _ _ _ hinv.1
    · intro b e h
      obtain ⟨hb0, he0, t0, hm0, hb00⟩ := hinv.2 b e h
      by_cases hee : e = ext
      · subst hee
        have ht0 : t0 = t := by
          rw [hledg] at hm0
          injection hm0 with hm0
          exact hm0.symm
        subst ht0
        have hbk : b = k := by
          rw [hbidt] at hb00
          injection hb00 with hb00
          exact hb00.symm
        subst hbk
        exact ⟨hb0, he0, tF, mget_mset_self _ _ _, hbidF2⟩
      · exact ⟨hb0, he0, t0,
          by rw [mget_mset_ne _ _ _ _ hee]; exact hm0, hb00⟩

theorem indexConsistent_cleanup {s : ServerState} (hinv : IndexConsistent s)
    (now : Int) : IndexConsistent (cleanupTransactionsInMemory now s) := by
  unfold cleanupTransactionsInMemory
  constructor
  · exact cleanupLoop_nodup hinv.1
  · intro b ext h
    have h0 : mget s.buckpayIdToExternalId b = some ext :=
      cleanupLoop_index_some h
    obtain ⟨hb, hext, t, hm, hbid⟩ := hinv.2 b ext h0
    have hmem : (ext, t) ∈ s.pendingTransactions := mem_of_mget_some hm
    by_cases hdel : sweepDeletes now t
    · exfalso
      have hnone := cleanupLoop_index_deleted hmem hdel hbid hb s
      exact Option.noConfusion (h.symm.trans hnone)
    · refine ⟨hb, hext, t, ?_, hbid⟩
      rw [cleanupLoop_ledger_mem hinv.1 hmem s, if_neg hdel]
      exact hm

/-- Claim C4: every attribution forward built by `sendToUTMify` carries the
commission `totalAmount - gatewayFee`, except that when the status is `'paid'`,
`totalAmount > 0` and the difference is `≤ 0`, the commission is exactly 1
cent; in particular `totalAmount = 500`, `gatewayFee = 500`, status `'paid'`
forwards commission 1, never 0 or a negative value. -/
theorem sendToUTMify_commission_floor (orderId : Option String)
    (status : String) (d : TransactionDataForUTMify) :
    ((sendToUTMify orderId status d).userCommissionInCents =
      if status = "paid" ∧ 0 < d.amountInCents ∧ d.amountInCents - d.gatewayFee ≤ 0
      then 1 else d.amountInCents - d.gatewayFee) ∧
    (sendToUTMify (some "order_1") "paid"
      { amountInCents := 500, gatewayFee := 500, tracking := none,
        customer := none, product := none, offer := none }).userCommissionInCents
      = 1 ∧
    0 < (sendToUTMify (some "order_1") "paid"
      { amountInCents := 500, gatewayFee := 500, tracking := none,
        customer := none, product := none, offer := none }).userCommissionInCents :=
  ⟨rfl, by decide, by decide⟩

/-- Claim C10: a webhook that does not resolve to a live ledger entry leaves
both the primary ledger map and the secondary index entirely unchanged, even
when the best-effort `'paid'` forward is performed. -/
theorem webhookBuckpay_miss_frame (s : ServerState) (data : WebhookData)
    (sendOk : Bool) (hmiss : (resolveWebhook s data.id).2 = none) :
    (webhookBuckpay s data sendOk).state = s := by
  have h : resolveWebhook s data.id = ((resolveWebhook s data.id).1, none) := by
    rw [← hmiss]
  exact webhookBuckpay_miss_state sendOk h

/-- Witness for C10 at a concrete miss. -/
theorem webhookBuckpay_miss_frame_witness :
    (resolveWebhook emptyServerState (some "bp_10")).2 = none ∧
    (webhookBuckpay emptyServerState
      { event := some "transaction.processed", id := some "bp_10",
        external_id := none, status := "paid", total_amount := some 700,
        amount := none, fees_gateway_fee := none, tracking := none,
        buyer := none, product := none, offer := none }
      true).state = emptyServerState :=
  ⟨rfl, webhookBuckpay_miss_frame emptyServerState
    { event := some "transaction.processed", id := some "bp_10",
      external_id := none, status := "paid", total_amount := some 700,
      amount := none, fees_gateway_fee := none, tracking := none,
      buyer := none, product := none, offer := none }
    true rfl⟩

/-- Claim C3: on a miss (in an index-consistent state), a `'paid'` status
yields exactly one forward built only from the webhook's own embedded data
(coerced amount and fee, tracking, buyer, product, offer), with the webhook's
own id as the forwarded orderId; any other status yields no forward; and the
HTTP response is 200 in both cases. -/
theorem webhookBuckpay_miss_paid_forward (s : ServerState) (data : WebhookData)
    (sendOk : Bool) (hinv : IndexConsistent s)
    (hmiss : (resolveWebhook s data.id).2 = none) :
    (data.status = "paid" →
      (webhookBuckpay s data sendOk).forwards =
        [sendToUTMify data.id "paid"
          { amountInCents := amountFromWebhook data
            gatewayFee := gatewayFeeFromWebhook data
            tracking := data.tracking
            customer := data.buyer
            product := data.product
            offer := data.offer }]) ∧
    (data.status ≠ "paid" → (webhookBuckpay s data sendOk).forwards = []) ∧
    (webhookBuckpay s data sendOk).httpStatus = 200 := by
  have hfst : (resolveWebhook s data.id).1 = none :=
    resolveWebhook_miss_fst_none hinv hmiss
  have h : resolveWebhook s data.id = (none, none) := by
    rw [← hfst, ← hmiss]
  rw [webhookBuckpay_miss sendOk h]
  by_cases hp : data.status = "paid"
  · simp [hp, jsOrStr]
  · simp [hp]

/-- Witness for C3 at a concrete `'paid'` miss on the (consistent) empty
state. -/
theorem webhookBuckpay_miss_paid_forward_witness :
    IndexConsistent emptyServerState ∧
    (resolveWebhook emptyServerState (some "bp_3")).2 = none ∧
    (webhookBuckpay emptyServerState
      { event := some "transaction.processed", id := some "bp_3",
        external_id := none, status := "paid", total_amount := some 1000,
        amount := some 900, fees_gateway_fee := some 200, tracking := some "trk",
        buyer := some "buyer", product := none, offer := none }
      true).forwards =
      [sendToUTMify (some "bp_3") "paid"
        { amountInCents := 1000, gatewayFee := 200, tracking := some "trk",
          customer := some "buyer", product := none, offer := none }] :=
  ⟨indexConsistent_empty, rfl, by
    have h := (webhookBuckpay_miss_paid_forward emptyServerState
      { event := some "transaction.processed", id := some "bp_3",
        external_id := none, status := "paid", total_amount := some 1000,
        amount := some 900, fees_gateway_fee := some 200, tracking := some "trk",
        buyer := some "buyer", product := none, offer := none }
      true indexConsistent_empty rfl).1 rfl
    simpa [amountFromWebhook, gatewayFeeFromWebhook] using h⟩

theorem sendToUTMify_status (orderId : Option String) (status : String)
    (d : TransactionDataForUTMify) :
    (sendToUTMify orderId status d).status = status := rfl

theorem webhookRecordNotified_status (t : TransactionInfo) (status : String)
    (sendOk : Bool) :
    (webhookRecordNotified t status sendOk).status = t.status := by
  unfold webhookRecordNotified
  split_ifs <;> rfl

theorem webhookRecordNotified_false (t : TransactionInfo) (status : String) :
    webhookRecordNotified t status false = t := by
  simp [webhookRecordNotified]

theorem webhookStatusUpdate_status_of_ne {t : TransactionInfo}
    {data : WebhookData} (hne : t.status ≠ data.status) :
    (webhookStatusUpdate t data).status = data.status := by
  unfold webhookStatusUpdate
  rw [if_pos hne]

theorem webhookStatusUpdate_notified (t : TransactionInfo) (data : WebhookData) :
    (webhookStatusUpdate t data).utmifyNotifiedStatus =
      t.utmifyNotifiedStatus := by
  unfold webhookStatusUpdate webhookMergeFields
  split_ifs <;> rfl

/-- Claim C2: on a hit whose webhook status differs from the stored status,
the handler updates the stored status and attempts exactly one forward with
the new status regardless of the notified-status history; if the forward
fails, the status update is retained and the failed status is not added to
the notified-status set. -/
theorem webhookBuckpay_status_change (s : ServerState) (data : WebhookData)
    (ext : String) (t : TransactionInfo) (sendOk : Bool)
    (hhit : resolveWebhook s data.id = (some ext, some t))
    (hne : t.status ≠ data.status) :
    ((webhookBuckpay s data sendOk).forwards.map UTMifyBody.status =
      [data.status]) ∧
    ∃ t2, mget (webhookBuckpay s data sendOk).state.pendingTransactions ext =
        some t2 ∧
      t2.status = data.status ∧
      (sendOk = false → t2.utmifyNotifiedStatus = t.utmifyNotifiedStatus) := by
  have hsend : webhookShouldSend t data.status = true := by
    simp [webhookShouldSend, hne]
  rw [webhookBuckpay_hit sendOk hhit]
  unfold webhookHit
  rw [if_pos hsend]
  constructor
  · simp [sendToUTMify_status]
  · refine ⟨webhookRecordNotified (webhookStatusUpdate t data) data.status sendOk,
      mget_mset_self _ _ _, ?_, ?_⟩
    · rw [webhookRecordNotified_status, webhookStatusUpdate_status_of_ne hne]
    · intro hok
      subst hok
      rw [webhookRecordNotified_false, webhookStatusUpdate_notified]

def wTx : TransactionInfo :=
  { createdAt := 0, buckpayId := some "bp_w", status := "pending",
    tracking := some "trk", customer := some "cust", product := none,
    offer := none, amountInCents := 1000, gatewayFee := 0,
    utmifyNotifiedStatus := ["waiting_payment"] }

def wState : ServerState :=
  { pendingTransactions := [("ord_w", wTx)],
    buckpayIdToExternalId := [("bp_w", "ord_w")] }

def wData : WebhookData :=
  { event := some "transaction.processed", id := some "bp_w",
    external_id := some "ord_w", status := "paid", total_amount := some 1000,
    amount := none, fees_gateway_fee := some 200, tracking := none,
    buyer := some "buyer2", product := none, offer := none }

/-- Witness for C2: a failed forward at a concrete status change keeps the new
status but not the notified mark. -/
theorem webhookBuckpay_status_change_witness :
    resolveWebhook wState wData.id = (some "ord_w", some wTx) ∧
    wTx.status ≠ wData.status ∧
    (((webhookBuckpay wState wData false).forwards.map UTMifyBody.status =
       ["paid"]) ∧
     ∃ t2, mget (webhookBuckpay wState wData false).state.pendingTransactions
         "ord_w" = some t2 ∧
       t2.status = "paid" ∧
       (false = false → t2.utmifyNotifiedStatus = wTx.utmifyNotifiedStatus)) :=
  ⟨rfl, by decide,
    webhookBuckpay_status_change wState wData "ord_w" wTx false rfl (by decide)⟩

/-- Claim C8: on every hit, the stored `gatewayFee` and `amountInCents` are
overwritten with the webhook's values under the numeric-coercion rule (absent
or non-numeric becomes 0, so no NaN/undefined is stored), while customer,
product and offer are overwritten only when the webhook supplies data for
them (JS `||`, modelled by `jsOrObj`), otherwise left intact. -/
theorem webhookBuckpay_hit_merge (s : ServerState) (data : WebhookData)
    (ext : String) (t : TransactionInfo) (sendOk : Bool)
    (hhit : resolveWebhook s data.id = (some ext, some t)) :
    ∃ t2, mget (webhookBuckpay s data sendOk).state.pendingTransactions ext =
        some t2 ∧
      t2.gatewayFee = gatewayFeeFromWebhook data ∧
      t2.amountInCents = amountFromWebhook data ∧
      t2.customer = jsOrObj data.buyer t.customer ∧
      t2.product = jsOrObj data.product t.product ∧
      t2.offer = jsOrObj data.offer t.offer := by
  rw [webhookBuckpay_hit sendOk hhit]
  unfold webhookHit
  by_cases hsend : webhookShouldSend t data.status = true
  · rw [if_pos hsend]
    refine ⟨_, mget_mset_self _ _ _, ?_, ?_, ?_, ?_, ?_⟩ <;>
      (unfold webhookRecordNotified webhookStatusUpdate webhookMergeFields ;
        split_ifs <;> rfl)
  · rw [if_neg hsend]
    refine ⟨_, mget_mset_self _ _ _, ?_, ?_, ?_, ?_, ?_⟩ <;>
      (unfold webhookStatusUpdate webhookMergeFields ; split_ifs <;> rfl)

/-- Witness for C8 at a concrete hit: fee and amount overwritten with the
webhook's coerced values, buyer overwritten (supplied), product kept
(absent). -/
theorem webhookBuckpay_hit_merge_witness :
    resolveWebhook wState wData.id = (some "ord_w", some wTx) ∧
    ∃ t2, mget (webhookBuckpay wState wData true).state.pendingTransactions
        "ord_w" = some t2 ∧
      t2.gatewayFee = gatewayFeeFromWebhook wData ∧
      t2.amountInCents = amountFromWebhook wData ∧
      t2.customer = jsOrObj wData.buyer wTx.customer ∧
      t2.product = jsOrObj wData.product wTx.product ∧
      t2.offer = jsOrObj wData.offer wTx.offer :=
  ⟨rfl, webhookBuckpay_hit_merge wState wData "ord_w" wTx true rfl⟩

/-- Claim C1: on a hit with webhook status `'paid'` equal to the stored
status, an already-notified `'paid'` suppresses the forward; consequently,
delivering the same `'paid'` webhook twice in a row yields exactly one
`'paid'` forward once the first delivery's forward succeeded. -/
theorem webhookBuckpay_paid_idempotent (s : ServerState) (data : WebhookData)
    (ext : String) (t : TransactionInfo) (sendOk : Bool)
    (hhit : resolveWebhook s data.id = (some ext, some t))
    (hpaid : data.status = "paid") :
    (t.status = "paid" → t.utmifyNotifiedStatus.contains "paid" = true →
      (webhookBuckpay s data sendOk).forwards = []) ∧
    (t.utmifyNotifiedStatus.contains "paid" = false →
      ((webhookBuckpay s data true).forwards.map UTMifyBody.status = ["paid"] ∧
       ∀ sendOk2, (webhookBuckpay (webhookBuckpay s data true).state data
         sendOk2).forwards = [])) := by
  constructor
  · intro hst hcont
    have hsend : webhookShouldSend t data.status = false := by
      unfold webhookShouldSend
      rw [if_neg (by simp [hst, hpaid]), if_pos hpaid, hcont]
      rfl
    rw [webhookBuckpay_hit sendOk hhit]
    unfold webhookHit
    rw [if_neg (by simp [hsend])]
  · intro hcont
    have hsend : webhookShouldSend t data.status = true := by
      by_cases hst : t.status = data.status
      · unfold webhookShouldSend
        rw [if_neg (by simp [hst]), if_pos hpaid, hcont]
        rfl
      · unfold webhookShouldSend
        rw [if_pos hst]
    have h1 : webhookBuckpay s data true =
        { state :=
            { s with
              pendingTransactions :=
                mset s.pendingTransactions ext
                  (webhookRecordNotified (webhookStatusUpdate t data)
                    data.status true) }
          forwards :=
            [sendToUTMify (some ext) data.status
              (txDataForUTMifyOf (webhookStatusUpdate t data))]
          httpStatus := 200 } := by
      rw [webhookBuckpay_hit true hhit]
      unfold webhookHit
      rw [if_pos hsend]
    constructor
    · rw [h1]
      simp [sendToUTMify_status, hpaid]
    · intro sendOk2
      obtain ⟨k, hik, hk, hidx, hexts, hledg⟩ := resolveWebhook_hit_inv hhit
      have htNstatus :
          (webhookRecordNotified (webhookStatusUpdate t data) data.status
            true).status = data.status := by
        rw [webhookRecordNotified_status]
        by_cases hst : t.status ≠ data.status
        · exact webhookStatusUpdate_status_of_ne hst
        · push_neg at hst
          unfold webhookStatusUpdate
          rw [if_neg (by simpa using hst)]
          show (webhookMergeFields t data).status = data.status
          rw [show (webhookMergeFields t data).status = t.status from rfl, hst]
      have htNcont :
          (webhookRecordNotified (webhookStatusUpdate t data) data.status
            true).utmifyNotifiedStatus.contains "paid" = true := by
        unfold webhookRecordNotified
        simp [hpaid]
      have hres2 : resolveWebhook (webhookBuckpay s data true).state data.id =
          (some ext, some (webhookRecordNotified (webhookStatusUpdate t data)
            data.status true)) := by
        rw [h1, hik]
        simp only [resolveWebhook, if_neg hk]
        rw [show ({ s with
              pendingTransactions :=
                mset s.pendingTransactions ext
                  (webhookRecordNotified (webhookStatusUpdate t data)
                    data.status true) } : ServerState).buckpayIdToExternalId =
            s.buckpayIdToExternalId from rfl, hidx]
        simp only [if_neg hexts]
        rw [mget_mset_self]
      rw [webhookBuckpay_hit sendOk2 hres2]
      unfold webhookHit
      have hsend2 : webhookShouldSend
          (webhookRecordNotified (webhookStatusUpdate t data) data.status true)
          data.status = false := by
        unfold webhookShouldSend
        rw [if_neg (by simp [htNstatus]), if_pos hpaid, htNcont]
        rfl
      rw [if_neg (by simp [hsend2])]

/-- Witness for C1: a concrete duplicate `'paid'` delivery; the first forwards
once, the second forwards nothing. -/
theorem webhookBuckpay_paid_idempotent_witness :
    resolveWebhook wState wData.id = (some "ord_w", some wTx) ∧
    wData.status = "paid" ∧
    wTx.utmifyNotifiedStatus.contains "paid" = false ∧
    ((webhookBuckpay wState wData true).forwards.map UTMifyBody.status =
      ["paid"] ∧
     ∀ sendOk2, (webhookBuckpay (webhookBuckpay wState wData true).state wData
       sendOk2).forwards = []) :=
  ⟨rfl, rfl, by decide,
    (webhookBuckpay_paid_idempotent wState wData "ord_w" wTx true rfl rfl).2
      (by decide)⟩

/-- Claim C9: a stored `'pending'` order older than the display threshold (in
this revision `TRANSACTION_LIFETIME_MINUTES` itself) is reported `'expired'`
by `GET /check-order-status` and the ledger holds `'expired'` after the call;
an id absent from the ledger gets the neutral `'not_found_or_expired'` with a
success response. -/
theorem checkOrderStatus_lazy_expiry (s : ServerState) (now : Int) (i : String)
    (t : TransactionInfo) (hi : i ≠ "") :
    (mget s.pendingTransactions i = some t → t.status = "pending" →
      now - t.createdAt > transactionLifetimeMs →
      (checkOrderStatus s now (some i)).2.1 = 200 ∧
      (checkOrderStatus s now (some i)).2.2 = some "expired" ∧
      mget (checkOrderStatus s now (some i)).1.pendingTransactions i =
        some { t with status := "expired" }) ∧
    (mget s.pendingTransactions i = none →
      checkOrderStatus s now (some i) = (s, 200, some "not_found_or_expired")) := by
  constructor
  · intro hm hp hage
    have hlz : lazyExpire t now = { t with status := "expired" } := by
      unfold lazyExpire
      rw [if_pos ⟨hp, hage⟩]
    refine ⟨?_, ?_, ?_⟩
    · simp [checkOrderStatus, hi, hm]
    · simp [checkOrderStatus, hi, hm, hlz]
    · simp only [checkOrderStatus, if_neg hi, hm]
      rw [hlz]
      exact mget_mset_self _ _ _
  · intro hm
    simp only [checkOrderStatus, if_neg hi, hm]

/-- Witness for C9: a concrete expired-pending query and a concrete miss
query. -/
theorem checkOrderStatus_lazy_expiry_witness :
    ("ord_w" : String) ≠ "" ∧
    mget wState.pendingTransactions "ord_w" = some wTx ∧
    wTx.status = "pending" ∧
    ((2100001 : Int) - wTx.createdAt > transactionLifetimeMs) ∧
    ((checkOrderStatus wState 2100001 (some "ord_w")).2.1 = 200 ∧
     (checkOrderStatus wState 2100001 (some "ord_w")).2.2 = some "expired" ∧
     mget (checkOrderStatus wState 2100001
       (some "ord_w")).1.pendingTransactions "ord_w" =
       some { wTx with status := "expired" }) ∧
    checkOrderStatus wState 2100001 (some "ord_gone") =
      (wState, 200, some "not_found_or_expired") :=
  ⟨by decide, rfl, rfl, by decide,
    (checkOrderStatus_lazy_expiry wState 2100001 "ord_w" wTx (by decide)).1
      rfl rfl (by decide),
    (checkOrderStatus_lazy_expiry wState 2100001 "ord_gone" wTx (by decide)).2
      rfl⟩

theorem wState_consistent : IndexConsistent wState := by
  constructor
  · simp [wState, keysOf]
  · intro b ext h
    simp only [wState, mget] at h
    split_ifs at h with hb
    · injection h with h
      subst h
      subst hb
      exact ⟨by decide, by decide, wTx, rfl, rfl⟩

/-- Claim C6: a pass of the cleanup sweep deletes a ledger entry exactly when
its age exceeds the lifetime threshold — whether `'pending'` or not — retains
younger entries unchanged, and leaves no secondary-index mapping pointing to a
deleted entry (the mapping keyed by a deleted entry's gateway id is removed
with it). -/
theorem cleanupTransactions_delete_iff_expired (now : Int) (s : ServerState)
    (hinv : IndexConsistent s) :
    (∀ k t, mget s.pendingTransactions k = some t →
      mget (cleanupTransactionsInMemory now s).pendingTransactions k =
        (if now - t.createdAt > transactionLifetimeMs then none else some t)) ∧
    (∀ b ext,
      mget (cleanupTransactionsInMemory now s).buckpayIdToExternalId b =
        some ext →
      ∃ t, mget (cleanupTransactionsInMemory now s).pendingTransactions ext =
        some t ∧ t.buckpayId = some b) := by
  constructor
  · intro k t hm
    have h2 := @cleanupLoop_ledger_mem now s.pendingTransactions k t hinv.1
      (mem_of_mget_some hm) s
    show mget (cleanupLoop now s.pendingTransactions s).pendingTransactions k = _
    rw [h2, hm]
    unfold sweepDeletes
    rfl
  · intro b ext h
    obtain ⟨_, _, t, hmt, hbid⟩ := (indexConsistent_cleanup hinv now).2 b ext h
    exact ⟨t, hmt, hbid⟩

/-- Witness for C6: the concrete entry is retained by a young sweep and
deleted by a late one. -/
theorem cleanupTransactions_delete_iff_expired_witness :
    IndexConsistent wState ∧
    mget (cleanupTransactionsInMemory 1000 wState).pendingTransactions "ord_w" =
      (if (1000 : Int) - wTx.createdAt > transactionLifetimeMs then none
       else some wTx) ∧
    mget (cleanupTransactionsInMemory 2100001
        wState).pendingTransactions "ord_w" =
      (if (2100001 : Int) - wTx.createdAt > transactionLifetimeMs then none
       else some wTx) :=
  ⟨wState_consistent,
    (cleanupTransactions_delete_iff_expired 1000 wState wState_consistent).1
      "ord_w" wTx rfl,
    (cleanupTransactions_delete_iff_expired 2100001 wState wState_consistent).1
      "ord_w" wTx rfl⟩

/-- Claim C7 counterexample: a state reached by one create-payment whose
gateway response id is the empty string, followed by one sweep after the
lifetime, keeps the index mapping `"" -> "ord_c7"` although the ledger entry
`"ord_c7"` has been deleted — the sweep's JS-truthiness guard
`if (transactionInfo.buckpayId)` skips index deletion for the empty id, so a
reachable state violates secondary-index consistency. -/
theorem indexConsistency_counterexample :
    Reachable (cleanupTransactionsInMemory 2100001
      (createPayment emptyServerState 0 "ord_c7" "" 500 none (some "cust")
        none none true)) ∧
    mget (cleanupTransactionsInMemory 2100001
      (createPayment emptyServerState 0 "ord_c7" "" 500 none (some "cust")
        none none true)).buckpayIdToExternalId "" = some "ord_c7" ∧
    mget (cleanupTransactionsInMemory 2100001
      (createPayment emptyServerState 0 "ord_c7" "" 500 none (some "cust")
        none none true)).pendingTransactions "ord_c7" = none :=
  ⟨Reachable.sweep _ 2100001
    (Reachable.create emptyServerState 0 "ord_c7" "" 500 none (some "cust")
      none none true Reachable.init rfl (by decide)),
   by decide, by decide⟩

/-- Claim C7 (amended): provided every create-payment stores a truthy
(nonempty) gateway transaction id, every reachable state is index-consistent:
each secondary-index key maps to exactly one live orderId whose ledger entry
carries that same gateway id, and no mapping points to a deleted entry or to
one whose stored gateway id differs from the key. -/
theorem reachableNE_indexConsistent (s : ServerState) (h : ReachableNE s) :
    IndexConsistent s := by
  induction h with
  | init => exact indexConsistent_empty
  | create s now externalId buckpayId amountInCents tracking customer product
      offer utmifySent h hfresh hext hbid ih =>
    exact indexConsistent_createPayment ih now externalId buckpayId
      amountInCents tracking customer product offer utmifySent hfresh hext hbid
  | webhook s data sendOk h ih =>
    exact indexConsistent_webhookBuckpay ih data sendOk
  | query s now externalId h ih =>
    exact indexConsistent_checkOrderStatus ih now externalId
  | sweep s now h ih => exact indexConsistent_cleanup ih now

/-- Witness for the amended C7 on a concrete nonempty-id run. -/
theorem reachableNE_indexConsistent_witness :
    IndexConsistent (createPayment emptyServerState 0 "ord_c7w" "bp_c7w" 500
      none (some "cust") none none true) :=
  reachableNE_indexConsistent _
    (ReachableNE.create emptyServerState 0 "ord_c7w" "bp_c7w" 500 none
      (some "cust") none none true ReachableNE.init rfl (by decide) (by decide))

def c5Tx : TransactionInfo :=
  { createdAt := 0, buckpayId := some "bp1", status := "pending",
    tracking := none, customer := some "cust", product := none, offer := none,
    amountInCents := 1000, gatewayFee := 0,
    utmifyNotifiedStatus := ["waiting_payment"] }

def c5State : ServerState :=
  { pendingTransactions := [("ord1", c5Tx)],
    buckpayIdToExternalId := [("bp1", "ord1")] }

def c5Data : WebhookData :=
  { event := some "transaction.processed", id := some "bp9",
    external_id := some "ord1", status := "paid", total_amount := some 1000,
    amount := none, fees_gateway_fee := some 100, tracking := none,
    buyer := none, product := none, offer := none }

/-- Claim C5 counterexample: the webhook carries the caller-supplied order
identifier `"ord1"` of a live ledger entry, the gateway-id lookup (`"bp9"`)
fails, yet the handler performs the miss path — the state (and thus the
resolvable entry's `'pending'` status) is untouched and the forward is keyed
by the gateway id, not the entry.  There is no fallback resolution by the
embedded order identifier. -/
theorem webhookResolution_counterexample :
    mget c5State.pendingTransactions "ord1" = some c5Tx ∧
    c5Tx.status = "pending" ∧
    c5Data.external_id = some "ord1" ∧
    c5Data.status = "paid" ∧
    (webhookBuckpay c5State c5Data true).state = c5State ∧
    (webhookBuckpay c5State c5Data true).forwards.map UTMifyBody.orderId =
      [some "bp9"] := by
  refine ⟨rfl, rfl, rfl, rfl, ?_, ?_⟩ <;> decide

/-- Claim C5 (amended): the webhook handler resolves the target order solely
by consulting the secondary index with the gateway transaction id — the
caller-supplied order identifier embedded in the notification is ignored
entirely — and the notification is a miss exactly when that single lookup
fails to yield a live ledger entry. -/
theorem webhookResolution_secondary_only (s : ServerState) (data : WebhookData)
    (sendOk : Bool) (x : Option String) :
    webhookBuckpay s { data with external_id := x } sendOk =
      webhookBuckpay s data sendOk ∧
    ((resolveWebhook s data.id).2 = none ↔
      ¬ ∃ k ext t, data.id = some k ∧ ¬k = "" ∧
        mget s.buckpayIdToExternalId k = some ext ∧ ¬ext = "" ∧
        mget s.pendingTransactions ext = some t) := by
  constructor
  · cases data
    rfl
  · constructor
    · intro hmiss hex
      obtain ⟨k, ext, t, hik, hk, hidx, hext, hm⟩ := hex
      rw [hik] at hmiss
      simp [resolveWebhook, hk, hidx, hext, hm] at hmiss
    · intro hne
      cases hsnd : (resolveWebhook s data.id).2 with
      | none => rfl
      | some t =>
        exfalso
        have hpair : resolveWebhook s data.id =
            ((resolveWebhook s data.id).1, some t) := by
          rw [← hsnd]
        obtain ⟨ext, ho, hres⟩ := resolveWebhook_snd_some hpair
        obtain ⟨k, hik, hk, hidx, hexts, hm⟩ := resolveWebhook_hit_inv hres
        exact hne ⟨k, ext, t, hik, hk, hidx, hexts, hm⟩
